import Mathlib

/-!
# DiscordDJBot: the per-guild playback queue

A shallow embedding of `src/index.js`: the guild queue store (`getQueue`), the
playback engine (`playNextSong` and the three player event handlers it
registers) and the queue commands (`play`, `skip`, `stop`, `clear`, `pause`,
`resume`).

Modelling conventions.

* A queue object is a value of `GuildQueue`; a handler is a function from the
  queue before to an `Outcome`: the queue after and the ordered log of what the
  handler asked of the outside world (messages sent, calls on the audio player).
* What the outside world decides is an input: `Env` says whether the author of a
  message sits in a voice channel and whether the audio stream of a song can be
  acquired; the result of the metadata lookup of `play` is the `Lookup` argument.
* `playNextSong` contains no `await`, so one call runs to completion before any
  other handler; its self-call in the `catch` branch is a plain recursion on the
  list of songs that remain. `playNextSongLoop` is that function on a call stack
  that is deep enough, `playNextSongWithin` the same function with the number
  of nested calls that fit as a parameter.
* The player event handlers are closures created once, when the player is
  created; the variables they capture (`song`, `message`) are the fields of
  `AudioPlayer`.
* A command handler runs inside the dispatcher's `try`/`catch`; a `TypeError`
  raised by `queue.player.stop()` on a null player is modelled by what the
  dispatcher does with it (it sends `Notice.commandError`).
-/

namespace DiscordDJBot

/-! ## Data model -/

/-- The song object built at lines 241-249 (`videoInfo` is never read by the
queue code and is left out; `requester` is `requester.username`). -/
structure Song where
  title : String
  url : String
  duration : Nat
  thumbnail : Option String
  requester : String
  addedAt : Nat
  deriving DecidableEq, Repr

/-- What the handlers read of a chat message: its channel, its author's user
name and its guild id. -/
structure Message where
  channel : String
  author : String
  guildId : String
  deriving DecidableEq, Repr

/-- The voice connection made by `joinVoiceChannel`. -/
structure VoiceConnection where
  channelId : String
  deriving DecidableEq, Repr

/-- The audio player made at line 379 together with the handlers registered at
lines 382-422: `song` and `message` are the variables of the creating call of
`playNextSong` that the three closures capture. -/
structure AudioPlayer where
  song : Song
  message : Message
  deriving DecidableEq, Repr

/-- The queue object of lines 50-57. -/
structure GuildQueue where
  songs : List Song
  connection : Option VoiceConnection
  player : Option AudioPlayer
  textChannel : Option String
  isPlaying : Bool
  volume : Rat
  deriving DecidableEq

/-- The user-facing messages of the queue code. -/
inductive Notice where
  /-- "Queue is empty. Add more songs with !play" (line 314). -/
  | queueEmpty
  /-- "You left the voice channel! Queue cleared." (line 325). -/
  | leftVoiceChannel
  /-- "Failed to play the current song. Skipping..." (line 429). -/
  | failedToPlay
  /-- "An error occurred during playback." (line 419). -/
  | playbackError
  /-- The "Now Playing" embed (lines 385-405): title, url, formatted duration,
  requester, thumbnail. -/
  | nowPlaying (title url duration requester : String) (thumbnail : Option String)
  /-- The "Added to Queue" embed (lines 257-282). -/
  | addedToQueue (title url duration : String) (position : Nat) (requester : String)
      (thumbnail : Option String)
  /-- "You need to be in a voice channel to play music!" (line 184). -/
  | needVoiceChannel
  /-- "Please provide a YouTube URL or search term!" (line 189). -/
  | needQuery
  /-- "Searching for your song..." (line 196). -/
  | searching
  /-- "No search results found for your query." (line 223). -/
  | noResults
  /-- "Failed to load the song." (line 299). -/
  | failedToLoad
  /-- "Nothing is currently playing." -/
  | nothingPlaying
  /-- "No more songs in the queue to skip to." (line 475). -/
  | noMoreSongs
  /-- "Skipped the current song." (line 479). -/
  | skipped
  /-- "Stopped playing and cleared the queue." (line 492). -/
  | stopped
  /-- "The queue is already empty." (line 499). -/
  | alreadyEmpty
  /-- "Cleared n songs from the queue." (line 504). -/
  | cleared (count : Nat)
  /-- "Paused the current song." (line 515). -/
  | paused
  /-- "Resumed the current song." (line 526). -/
  | resumed
  /-- "An error occurred while processing your command." (line 111). -/
  | commandError
  deriving DecidableEq, Repr

/-- What a handler asks of the outside world, in program order. -/
inductive Effect where
  /-- Covers `channel.send(...)`. -/
  | send (channel : String) (notice : Notice)
  /-- Lines 337-376 are entered for `song`: the attempt to acquire the audio
  stream of `song.url`. -/
  | acquire (song : Song)
  /-- Covers `queue.player.play(resource)`, the resource streaming `song.url`. -/
  | play (song : Song)
  /-- Covers `queue.player.stop()`. -/
  | stop
  /-- Covers `queue.player.pause()`. -/
  | pause
  /-- Covers `queue.player.unpause()`. -/
  | unpause
  deriving DecidableEq, Repr

/-- The queue after a handler and the effects it issued. -/
structure Outcome where
  queue : GuildQueue
  effects : List Effect
  deriving DecidableEq

/-- The part of the outside world a handler consults. -/
structure Env where
  /-- The value of `message.member.voice.channel` (its id), `none` for null. -/
  voiceChannel : Message → Option String
  /-- Whether lines 337-376 (binary check, `spawn`, `createAudioResource`)
  complete for the song; `false` is a throw inside the `try`. -/
  streamOk : Song → Bool

/-! ## Helpers -/

/-- The method `String.prototype.padStart(targetLength, padString)` for a
one-character pad string. -/
def padStart (s : String) (targetLength : Nat) (pad : Char) : String :=
  String.mk (List.replicate (targetLength - s.length) pad) ++ s

/-- Lines 304-308 on an integer number of seconds up to `2 ^ 53`: there the
double arithmetic of the source gives the integer quotient for
`Math.floor(seconds / 60)`, `%` is exact and the template literal prints the
decimal numeral of an integer. -/
def formatDuration (seconds : Nat) : String :=
  let minutes := seconds / 60
  let remainingSeconds := seconds % 60
  toString minutes ++ ":" ++ padStart (toString remainingSeconds) 2 '0'

/-- The call `queue.textChannel?.send(notice)`. -/
def notify (q : GuildQueue) (notice : Notice) : List Effect :=
  match q.textChannel with
  | some channel => [Effect.send channel notice]
  | none => []

/-! ## Guild queue store -/

/-- The volume literal `0.5` of line 56. -/
def defaultVolume : Rat := ⟨1, 2, by decide, by decide⟩

/-- The object literal of lines 50-57. -/
def freshQueue : GuildQueue :=
  { songs := [], connection := none, player := none, textChannel := none,
    isPlaying := false, volume := defaultVolume }

/-- The map `queues` of line 35: guild id to queue, in insertion order. -/
abbrev Store := List (String × GuildQueue)

/-- The method `Map.prototype.get`. -/
def Store.get (queues : Store) (guildId : String) : Option GuildQueue :=
  match queues with
  | [] => none
  | (k, v) :: rest => if k = guildId then some v else Store.get rest guildId

/-- The method `Map.prototype.has`. -/
def Store.has (queues : Store) (guildId : String) : Bool :=
  (queues.get guildId).isSome

/-- The method `Map.prototype.set`: an existing key keeps its place. -/
def Store.set (queues : Store) (guildId : String) (q : GuildQueue) : Store :=
  match queues with
  | [] => [(guildId, q)]
  | (k, v) :: rest =>
    if k = guildId then (k, q) :: rest else (k, v) :: Store.set rest guildId q

/-- Lines 48-60: the value returned (`none` for `undefined`) and the store
afterwards. -/
def getQueue (queues : Store) (guildId : String) : Option GuildQueue × Store :=
  let queues1 := if !queues.has guildId then queues.set guildId freshQueue else queues
  (queues1.get guildId, queues1)

/-! ## Playback engine -/

/-- Lines 321-335: the connection in force after the block, `none` when the
early return of line 325 fires. -/
def ensureConnection (env : Env) (message : Message) (q : GuildQueue) :
    Option VoiceConnection :=
  match q.connection with
  | some connection => some connection
  | none =>
    match env.voiceChannel message with
    | none => none
    | some channelId => some { channelId := channelId }

/-- Lines 311-433 with `queue.songs` passed as the list argument (the `songs`
field of `q` is overwritten with it on every path). The self-call of line 431
is taken to succeed: this is the function on a call stack that is deep enough;
`playNextSongWithin` counts the nested calls. -/
def playNextSongLoop (env : Env) (message : Message) :
    List Song → GuildQueue → Outcome
  | [], q =>
    { queue := { q with songs := [], isPlaying := false },
      effects := notify q Notice.queueEmpty }
  | song :: rest, q =>
    match ensureConnection env message q with
    | none =>
      { queue := { q with songs := [] },
        effects := [Effect.send message.channel Notice.leftVoiceChannel] }
    | some connection =>
      if env.streamOk song then
        let player :=
          match q.player with
          | some player => player
          | none => { song := song, message := message }
        { queue := { q with songs := song :: rest, connection := some connection,
                            player := some player },
          effects := [Effect.acquire song, Effect.play song] }
      else
        let next := playNextSongLoop env message rest
          { q with connection := some connection }
        { queue := next.queue,
          effects := Effect.acquire song :: (notify q Notice.failedToPlay ++ next.effects) }

/-- Lines 311-433. -/
def playNextSong (env : Env) (message : Message) (q : GuildQueue) : Outcome :=
  playNextSongLoop env message q.songs q

/-- How a call of `playNextSong` ends on a call stack of bounded depth. -/
inductive CallResult where
  /-- The call returned. -/
  | returned (outcome : Outcome)
  /-- A nested call of `playNextSong` did not fit on the call stack
  (`RangeError: Maximum call stack size exceeded`); nothing runs after it, and
  `outcome` is the queue and the effects at that point. -/
  | stackExhausted (outcome : Outcome)
  deriving DecidableEq

/-- Lines 311-433 when `depth` nested calls of `playNextSong` fit on the call
stack: the self-call of line 431 is synchronous (the body has no `await`), so
every failing song adds a frame. The stack is taken to run out at a call of
`playNextSong` itself. -/
def playNextSongWithin (env : Env) (message : Message) :
    Nat → List Song → GuildQueue → CallResult
  | 0, songs, q => CallResult.stackExhausted { queue := { q with songs := songs }, effects := [] }
  | _ + 1, [], q =>
    CallResult.returned
      { queue := { q with songs := [], isPlaying := false },
        effects := notify q Notice.queueEmpty }
  | depth + 1, song :: rest, q =>
    match ensureConnection env message q with
    | none =>
      CallResult.returned
        { queue := { q with songs := [] },
          effects := [Effect.send message.channel Notice.leftVoiceChannel] }
    | some connection =>
      if env.streamOk song then
        let player :=
          match q.player with
          | some player => player
          | none => { song := song, message := message }
        CallResult.returned
          { queue := { q with songs := song :: rest, connection := some connection,
                              player := some player },
            effects := [Effect.acquire song, Effect.play song] }
      else
        match playNextSongWithin env message depth rest
            { q with connection := some connection } with
        | CallResult.returned next =>
          CallResult.returned
            { queue := next.queue,
              effects := Effect.acquire song :: (notify q Notice.failedToPlay ++ next.effects) }
        | CallResult.stackExhausted next =>
          CallResult.stackExhausted
            { queue := next.queue,
              effects := Effect.acquire song :: (notify q Notice.failedToPlay ++ next.effects) }

/-- The `AudioPlayerStatus.Playing` handler, lines 382-407. -/
def onPlaying (player : AudioPlayer) (q : GuildQueue) : Outcome :=
  let q1 := { q with isPlaying := true }
  { queue := q1,
    effects := notify q1 (Notice.nowPlaying player.song.title player.song.url
      (formatDuration player.song.duration) player.song.requester player.song.thumbnail) }

/-- The `AudioPlayerStatus.Idle` handler, lines 409-415 (`shift` on an empty
array removes nothing). -/
def onIdle (env : Env) (player : AudioPlayer) (q : GuildQueue) : Outcome :=
  playNextSong env player.message { q with songs := q.songs.tail }

/-- The player `error` handler, lines 417-422. -/
def onError (env : Env) (player : AudioPlayer) (q : GuildQueue) : Outcome :=
  let next := playNextSong env player.message { q with songs := q.songs.tail }
  { queue := next.queue, effects := notify q Notice.playbackError ++ next.effects }

/-! ## Commands -/

/-- What `play.video_info` gives for the resolved video: `url` is the value of
`songUrl` at line 241 (the query itself for a video URL, the first search
result's url otherwise; the empty string stands for a falsy value). -/
structure VideoInfo where
  title : String
  url : String
  durationInSec : Nat
  thumbnail : Option String
  deriving DecidableEq, Repr

/-- How lines 199-235 end. -/
inductive Lookup where
  /-- The metadata was retrieved. -/
  | found (info : VideoInfo)
  /-- The search gave no result (line 223). -/
  | noResults
  /-- A call threw; control goes to the `catch` of line 295. -/
  | failed
  deriving DecidableEq, Repr

/-- The song object of lines 241-249; `now` is `Date.now()`. -/
def mkSong (message : Message) (query : String) (info : VideoInfo) (now : Nat) : Song :=
  { title := info.title,
    url := if info.url = "" then query else info.url,
    duration := info.durationInSec,
    thumbnail := info.thumbnail,
    requester := message.author,
    addedAt := now }

/-- Lines 178-301, on the queue `getQueue` returned. -/
def handlePlayCommand (env : Env) (message : Message) (query : String) (lookup : Lookup)
    (now : Nat) (q : GuildQueue) : Outcome :=
  match env.voiceChannel message with
  | none => { queue := q, effects := [Effect.send message.channel Notice.needVoiceChannel] }
  | some _ =>
    if query = "" then
      { queue := q, effects := [Effect.send message.channel Notice.needQuery] }
    else
      match lookup with
      | Lookup.noResults =>
        { queue := q,
          effects := [Effect.send message.channel Notice.searching,
                      Effect.send message.channel Notice.noResults] }
      | Lookup.failed =>
        { queue := q,
          effects := [Effect.send message.channel Notice.searching,
                      Effect.send message.channel Notice.failedToLoad] }
      | Lookup.found info =>
        let song := mkSong message query info now
        let q1 := { q with songs := q.songs ++ [song], textChannel := some message.channel }
        let announce :=
          [Effect.send message.channel Notice.searching,
           Effect.send message.channel
             (Notice.addedToQueue song.title song.url (formatDuration song.duration)
               q1.songs.length song.requester song.thumbnail)]
        if !q1.isPlaying then
          let next := playNextSong env message q1
          { queue := next.queue, effects := announce ++ next.effects }
        else
          { queue := q1, effects := announce }

/-- Lines 467-480. -/
def handleSkipCommand (message : Message) (q : GuildQueue) : Outcome :=
  if !q.isPlaying then
    { queue := q, effects := [Effect.send message.channel Notice.nothingPlaying] }
  else if q.songs.length ≤ 1 then
    { queue := q, effects := [Effect.send message.channel Notice.noMoreSongs] }
  else
    match q.player with
    | none => { queue := q, effects := [Effect.send message.channel Notice.commandError] }
    | some _ =>
      { queue := q, effects := [Effect.stop, Effect.send message.channel Notice.skipped] }

/-- Lines 482-493. -/
def handleStopCommand (message : Message) (q : GuildQueue) : Outcome :=
  if !q.isPlaying then
    { queue := q, effects := [Effect.send message.channel Notice.nothingPlaying] }
  else
    match q.player with
    | none =>
      { queue := { q with songs := [] },
        effects := [Effect.send message.channel Notice.commandError] }
    | some _ =>
      { queue := { q with songs := [], isPlaying := false },
        effects := [Effect.stop, Effect.send message.channel Notice.stopped] }

/-- Lines 495-505. -/
def handleClearCommand (message : Message) (q : GuildQueue) : Outcome :=
  if q.songs.length = 0 then
    { queue := q, effects := [Effect.send message.channel Notice.alreadyEmpty] }
  else
    let clearedCount := q.songs.length
    { queue := { q with songs := [] },
      effects := [Effect.send message.channel (Notice.cleared clearedCount)] }

/-- Lines 507-516. -/
def handlePauseCommand (message : Message) (q : GuildQueue) : Outcome :=
  if !q.isPlaying || q.player.isNone then
    { queue := q, effects := [Effect.send message.channel Notice.nothingPlaying] }
  else
    { queue := q, effects := [Effect.pause, Effect.send message.channel Notice.paused] }

/-- Lines 518-527. -/
def handleResumeCommand (message : Message) (q : GuildQueue) : Outcome :=
  if q.player.isNone then
    { queue := q, effects := [Effect.send message.channel Notice.nothingPlaying] }
  else
    { queue := q, effects := [Effect.unpause, Effect.send message.channel Notice.resumed] }

/-! ## The queue command -/

/-- The embed of lines 446-462: the description, the value of the "Total Songs"
field and the footer text (`none` when no footer is set). -/
structure QueueEmbed where
  description : String
  totalSongs : String
  footer : Option String
  deriving DecidableEq, Repr

/-- What `handleQueueCommand` sends to the channel of the message. -/
inductive QueueReply where
  /-- "The queue is currently empty." (line 439). -/
  | empty
  /-- The "Music Queue" embed (line 464). -/
  | listing (embed : QueueEmbed)
  deriving DecidableEq, Repr

/-- The template literal of line 443 for the song at position `index` of the
slice. -/
def queueLine (index : Nat) (song : Song) : String :=
  toString (index + 1) ++ ". **[" ++ song.title ++ "](" ++ song.url ++ ")** - " ++
    formatDuration song.duration ++ " | *" ++ song.requester ++ "*"

/-- The array `queue.songs.slice(0, 10).map(...)` of lines 442-444, before the
`join`. -/
def queueEntries (songs : List Song) : List String :=
  (songs.take 10).mapIdx queueLine

/-- Lines 435-465; the queue is only read. -/
def handleQueueCommand (q : GuildQueue) : QueueReply :=
  if q.songs.length = 0 then
    QueueReply.empty
  else
    let queueList := "\n".intercalate (queueEntries q.songs)
    QueueReply.listing
      { description := queueList,
        totalSongs := toString q.songs.length,
        footer :=
          if q.songs.length > 10 then
            some ("... and " ++ toString (q.songs.length - 10) ++ " more songs")
          else none }

/-! ## Runs of one guild queue -/

/-- One thing that happens to a guild queue: a command message or an event of
its player. -/
inductive Input where
  | play (message : Message) (query : String) (lookup : Lookup) (now : Nat)
  | skip (message : Message)
  | stop (message : Message)
  | clear (message : Message)
  | pause (message : Message)
  | resume (message : Message)
  | playing
  | idle
  | error
  deriving DecidableEq, Repr

/-- The handler run for an input. A player event reaches a handler only once
the player exists: before that no handler is registered. -/
def step (env : Env) (q : GuildQueue) : Input → Outcome
  | Input.play message query lookup now => handlePlayCommand env message query lookup now q
  | Input.skip message => handleSkipCommand message q
  | Input.stop message => handleStopCommand message q
  | Input.clear message => handleClearCommand message q
  | Input.pause message => handlePauseCommand message q
  | Input.resume message => handleResumeCommand message q
  | Input.playing =>
    match q.player with
    | some player => onPlaying player q
    | none => { queue := q, effects := [] }
  | Input.idle =>
    match q.player with
    | some player => onIdle env player q
    | none => { queue := q, effects := [] }
  | Input.error =>
    match q.player with
    | some player => onError env player q
    | none => { queue := q, effects := [] }

/-- The handlers run one after the other, each under the outside world of its
moment; the effects are concatenated in order. -/
def run (q : GuildQueue) : List (Env × Input) → Outcome
  | [] => { queue := q, effects := [] }
  | (env, input) :: rest =>
    let first := step env q input
    let later := run first.queue rest
    { queue := later.queue, effects := first.effects ++ later.effects }

/-! ## Sample inputs -/

/-- An outside world in which every author sits in voice channel "vc" and
every stream can be acquired. -/
def envOk : Env := { voiceChannel := fun _ => some "vc", streamOk := fun _ => true }

/-- An outside world in which every author sits in voice channel "vc" and no
stream can be acquired. -/
def envNoStream : Env := { voiceChannel := fun _ => some "vc", streamOk := fun _ => false }

/-- A command message of user "dj" in text channel "music" of guild "g1". -/
def sampleMessage : Message := { channel := "music", author := "dj", guildId := "g1" }

/-- Metadata of a video "A" of 125 seconds. -/
def infoA : VideoInfo :=
  { title := "A", url := "https://youtu.be/a", durationInSec := 125, thumbnail := none }

/-- Metadata of a video "B" of 59 seconds. -/
def infoB : VideoInfo :=
  { title := "B", url := "https://youtu.be/b", durationInSec := 59, thumbnail := none }

/-- The song `play A` enqueues at time 0. -/
def songA : Song := mkSong sampleMessage "A" infoA 0

/-- The song `play B` enqueues at time 1. -/
def songB : Song := mkSong sampleMessage "B" infoB 1

/-- The command `play A` at time 0, all going well. -/
def playA : Env × Input := (envOk, Input.play sampleMessage "A" (Lookup.found infoA) 0)

/-- The command `play B` at time 1, all going well. -/
def playB : Env × Input := (envOk, Input.play sampleMessage "B" (Lookup.found infoB) 1)

/-! ## Listening sessions

A run made only of `play` commands that enqueue and of Playing and Idle events
of a player that holds a track, together with what an observer records of it. -/

/-- The songs of the `player.play` calls among the effects, in order. -/
def playedSongs (effects : List Effect) : List Song :=
  effects.filterMap (fun effect =>
    match effect with
    | Effect.play song => some song
    | _ => none)

/-- What an observer of a run records besides the queue. -/
structure Session where
  queue : GuildQueue
  /-- The songs built by the `play` commands so far, in order of arrival. -/
  enqueued : List Song
  /-- The number of Idle events so far: the tracks that have ended. -/
  ended : Nat
  /-- Every song handed to `player.play` so far, each with the number of tracks
  that had ended when it was handed over. -/
  handed : List (Nat × Song)
  /-- Whether the player holds a track that has not ended: set by
  `player.play`, cleared by the Idle event. -/
  loaded : Bool
  /-- Whether every input so far was admissible (see `admissible`). -/
  nominal : Bool

/-- The inputs of a listening session: a `play` with a query whose lookup
succeeds, and a Playing or Idle event of a player that holds a track. -/
def admissible (loaded : Bool) : Input → Bool
  | Input.play _ query (Lookup.found _) _ => decide (query ≠ "")
  | Input.playing => loaded
  | Input.idle => loaded
  | _ => false

/-- The songs enqueued once the input is handled. -/
def enqueuedAfter (enqueued : List Song) : Input → List Song
  | Input.play message query (Lookup.found info) now =>
    enqueued ++ [mkSong message query info now]
  | _ => enqueued

/-- The number of tracks that have ended once the input is handled. -/
def endedAfter (ended : Nat) : Input → Nat
  | Input.idle => ended + 1
  | _ => ended

/-- Whether the player holds a track once the input is handled, `played` being
the songs the handler handed to it. -/
def loadedAfter (loaded : Bool) (played : List Song) : Input → Bool
  | Input.idle => !played.isEmpty
  | _ => loaded || !played.isEmpty

/-- The handler of the input is run on the queue (`step`) and the record is
brought up to date. -/
def Session.advance (env : Env) (s : Session) (input : Input) : Session :=
  let outcome := step env s.queue input
  let played := playedSongs outcome.effects
  { queue := outcome.queue,
    enqueued := enqueuedAfter s.enqueued input,
    ended := endedAfter s.ended input,
    handed := s.handed ++ played.map (fun song => (endedAfter s.ended input, song)),
    loaded := loadedAfter s.loaded played input,
    nominal := s.nominal && admissible s.loaded input }

/-- The record before any input: the fresh queue, nothing enqueued, ended or
handed over. -/
def Session.start : Session :=
  { queue := freshQueue, enqueued := [], ended := 0, handed := [], loaded := false,
    nominal := true }

/-- The record after the inputs, all handled under the same outside world. -/
def session (env : Env) (inputs : List Input) : Session :=
  inputs.foldl (Session.advance env) Session.start

/-- What holds of the record throughout a listening session. -/
structure Session.Consistent (s : Session) : Prop where
  ended_le : s.ended ≤ s.enqueued.length
  songs_eq : s.queue.songs = s.enqueued.drop s.ended
  loaded_iff : s.loaded = true ↔ s.queue.songs ≠ []
  idle_flag : s.queue.songs = [] → s.queue.isPlaying = false
  has_player : s.queue.songs ≠ [] → s.queue.player ≠ none
  handed_iff : ∀ (k : Nat) (song : Song),
    (k, song) ∈ s.handed ↔ s.enqueued[k]? = some song ∧ k ≤ s.ended

/-- A queue of 5000 copies of song A behind a playing head, with a live
connection, a player and a text channel. -/
def longQueue : GuildQueue :=
  { songs := List.replicate 5000 songA,
    connection := some { channelId := "vc" },
    player := some { song := songA, message := sampleMessage },
    textChannel := some "music",
    isPlaying := true,
    volume := defaultVolume }

/-- A listening session: `play A`, Playing, `play B`, Idle (A ends), Playing. -/
def sampleSession : List Input :=
  [Input.play sampleMessage "A" (Lookup.found infoA) 0, Input.playing,
   Input.play sampleMessage "B" (Lookup.found infoB) 1, Input.idle, Input.playing]

/-! ## Invariants of the playback engine -/

/-- Part of the queue invariant: a queue flagged as playing has a player. -/
def PlayerWhenPlaying (q : GuildQueue) : Prop :=
  q.isPlaying = true → q.player ≠ none

/-- A queue that holds a song, a player or a connection has a text channel. -/
def NotifyReady (q : GuildQueue) : Prop :=
  (q.songs ≠ [] ∨ q.player ≠ none ∨ q.connection ≠ none) → q.textChannel ≠ none

theorem playNextSongLoop_playerWhenPlaying (env : Env) (message : Message) :
    ∀ (songs : List Song) (q : GuildQueue), PlayerWhenPlaying q →
      PlayerWhenPlaying (playNextSongLoop env message songs q).queue := by
  intro songs
  induction songs with
  | nil => intro q _ h; simp [playNextSongLoop] at h
  | cons song rest ih =>
    intro q hq
    unfold playNextSongLoop
    cases hc : ensureConnection env message q with
    | none => exact hq
    | some connection =>
      by_cases hs : env.streamOk song = true
      · intro _; simp [hs]
      · simp only [hs]
        exact ih _ hq

theorem step_playerWhenPlaying (env : Env) (q : GuildQueue) (input : Input)
    (hq : PlayerWhenPlaying q) : PlayerWhenPlaying (step env q input).queue := by
  cases input with
  | play message query lookup now =>
    simp only [step, handlePlayCommand]
    cases env.voiceChannel message with
    | none => exact hq
    | some vc =>
      by_cases hquery : query = ""
      · simpa [hquery] using hq
      · cases lookup with
        | noResults => simpa [hquery] using hq
        | failed => simpa [hquery] using hq
        | found info =>
          by_cases hp : q.isPlaying = true
          · have hplayer := hq hp
            simp [hquery, hp, PlayerWhenPlaying, hplayer]
          · simp only [hquery, hp]
            exact playNextSongLoop_playerWhenPlaying env message _ _ (by intro h; simp at h)
  | skip message =>
    simp only [step, handleSkipCommand]
    split
    · exact hq
    · split
      · exact hq
      · split <;> exact hq
  | stop message =>
    simp only [step, handleStopCommand]
    by_cases hp : q.isPlaying = true
    · cases hplayer : q.player with
      | none => exact absurd hplayer (hq hp)
      | some player => intro h; simp [hp] at h
    · simpa [hp] using hq
  | clear message =>
    simp only [step, handleClearCommand]
    split <;> exact hq
  | pause message =>
    simp only [step, handlePauseCommand]
    split <;> exact hq
  | resume message =>
    simp only [step, handleResumeCommand]
    split <;> exact hq
  | playing =>
    simp only [step]
    cases hp : q.player with
    | none => exact hq
    | some player => intro _; simp [onPlaying, hp]
  | idle =>
    simp only [step]
    cases hp : q.player with
    | none => exact hq
    | some player =>
      exact playNextSongLoop_playerWhenPlaying env player.message _ _ hq
  | error =>
    simp only [step]
    cases hp : q.player with
    | none => exact hq
    | some player =>
      exact playNextSongLoop_playerWhenPlaying env player.message _ _ hq

theorem run_playerWhenPlaying :
    ∀ (inputs : List (Env × Input)) (q : GuildQueue), PlayerWhenPlaying q →
      PlayerWhenPlaying (run q inputs).queue := by
  intro inputs
  induction inputs with
  | nil => intro q hq; exact hq
  | cons first rest ih =>
    intro q hq
    obtain ⟨env, input⟩ := first
    exact ih _ (step_playerWhenPlaying env q input hq)

/-! ## C1: the queue invariant -/

/-- C1, as stated, fails: after `play A`, the Playing event and `clear`, the
queue is flagged as playing while `songs` is empty. -/
theorem C1_counterexample :
    ¬ ((run freshQueue [playA, (envOk, Input.playing),
          (envOk, Input.clear sampleMessage)]).queue.isPlaying = true →
        (run freshQueue [playA, (envOk, Input.playing),
          (envOk, Input.clear sampleMessage)]).queue.player ≠ none ∧
        (run freshQueue [playA, (envOk, Input.playing),
          (envOk, Input.clear sampleMessage)]).queue.songs ≠ []) := by
  decide

/-- C1, amended: in every state reached from the fresh queue by commands and
player events, `isPlaying == true` implies that `player` is not null. -/
theorem C1_playing_implies_player (inputs : List (Env × Input)) :
    (run freshQueue inputs).queue.isPlaying = true →
      (run freshQueue inputs).queue.player ≠ none :=
  run_playerWhenPlaying inputs freshQueue (by intro h; simp [freshQueue] at h)

/-- C1, amended, at the run `play A`, Playing. -/
theorem C1_playing_implies_player_witness :
    (run freshQueue [playA, (envOk, Input.playing)]).queue.isPlaying = true ∧
      (run freshQueue [playA, (envOk, Input.playing)]).queue.player ≠ none :=
  ⟨by decide, C1_playing_implies_player [playA, (envOk, Input.playing)] (by decide)⟩

/-! ## C2: stop -/

/-- C2, as stated, fails: after `play A` and before the Playing event the queue
holds one song with `isPlaying == false`, and `stop` leaves that song in place. -/
theorem C2_counterexample :
    ¬ ((handleStopCommand sampleMessage (run freshQueue [playA]).queue).queue.songs.length = 0 ∧
       (handleStopCommand sampleMessage (run freshQueue [playA]).queue).queue.isPlaying = false) := by
  decide

/-- C2, amended: when `isPlaying` is true and the player is not null, the state
after `handleStopCommand` has `songs.length == 0` and `isPlaying == false`, and
the player is asked to stop; when `isPlaying` is false the command is rejected
and the queue is unchanged. -/
theorem C2_stop_when_playing (message : Message) (q : GuildQueue) :
    (q.isPlaying = true → q.player ≠ none →
      (handleStopCommand message q).queue.songs.length = 0 ∧
      (handleStopCommand message q).queue.isPlaying = false ∧
      (handleStopCommand message q).effects =
        [Effect.stop, Effect.send message.channel Notice.stopped]) ∧
    (q.isPlaying = false →
      (handleStopCommand message q).queue = q ∧
      (handleStopCommand message q).effects =
        [Effect.send message.channel Notice.nothingPlaying]) := by
  constructor
  · intro hp hplayer
    cases hq : q.player with
    | none => exact absurd hq hplayer
    | some player => simp [handleStopCommand, hp, hq]
  · intro hp
    simp [handleStopCommand, hp]

/-- C2, amended, at the playing queue after `play A`, Playing and at the queue
after `play A` alone. -/
theorem C2_stop_when_playing_witness :
    ((handleStopCommand sampleMessage
        (run freshQueue [playA, (envOk, Input.playing)]).queue).queue.songs.length = 0 ∧
      (handleStopCommand sampleMessage
        (run freshQueue [playA, (envOk, Input.playing)]).queue).queue.isPlaying = false ∧
      (handleStopCommand sampleMessage
        (run freshQueue [playA, (envOk, Input.playing)]).queue).effects =
        [Effect.stop, Effect.send sampleMessage.channel Notice.stopped]) ∧
    ((handleStopCommand sampleMessage (run freshQueue [playA]).queue).queue =
        (run freshQueue [playA]).queue ∧
      (handleStopCommand sampleMessage (run freshQueue [playA]).queue).effects =
        [Effect.send sampleMessage.channel Notice.nothingPlaying]) :=
  ⟨(C2_stop_when_playing sampleMessage
      (run freshQueue [playA, (envOk, Input.playing)]).queue).1 (by decide) (by decide),
   (C2_stop_when_playing sampleMessage (run freshQueue [playA]).queue).2 (by decide)⟩

/-! ## C3: clear -/

/-- C3, as stated, fails: with A playing and B queued behind it, `clear` does
not keep the head A and drop only B: it leaves `songs` empty. -/
theorem C3_counterexample :
    ¬ ((handleClearCommand sampleMessage
          (run freshQueue [playA, (envOk, Input.playing), playB]).queue).queue.songs =
        (run freshQueue [playA, (envOk, Input.playing), playB]).queue.songs.take 1) := by
  decide

/-- C3, amended: `handleClearCommand` changes no field but `songs`, which it
leaves empty (the head included), and it makes no call on the player: its only
effect is one message. -/
theorem C3_clear_empties_songs (message : Message) (q : GuildQueue) :
    (handleClearCommand message q).queue = { q with songs := [] } ∧
    (handleClearCommand message q).effects =
      [Effect.send message.channel
        (if q.songs.length = 0 then Notice.alreadyEmpty else Notice.cleared q.songs.length)] := by
  by_cases h : q.songs.length = 0
  · have hs : q.songs = [] := List.length_eq_zero.mp h
    simp [handleClearCommand, hs]
    cases q
    simp_all
  · simp [handleClearCommand, h]

/-! ## C4: skip -/

/-- C4, as stated, fails: after `play A` and `play B` with no Playing event yet,
`songs.length` is 2 and `skip` is rejected all the same: no stop is requested
of the player, so no head is removed. -/
theorem C4_counterexample :
    ¬ ((run freshQueue [playA, playB]).queue.songs.length ≤ 1 ∨
       Effect.stop ∈ (handleSkipCommand sampleMessage (run freshQueue [playA, playB]).queue).effects) := by
  decide

/-- C4, amended: `handleSkipCommand` never changes the queue itself; when
`isPlaying` is false it only sends "Nothing is currently playing", and when
`isPlaying` is true with `songs.length <= 1` it only sends "No more songs in the
queue to skip to"; when `isPlaying` is true, the player exists and `songs` is `a :: b :: rest`, it
calls the player's stop once, and the Idle event that follows removes exactly
the head `a` and calls `playNextSong` once on `b :: rest`, which, over a live
connection and with the stream of `b` acquired, hands `b` to the player and
leaves `songs == b :: rest`. -/
theorem C4_skip (env : Env) (message : Message) (q : GuildQueue) :
    (handleSkipCommand message q).queue = q ∧
    (q.isPlaying = false →
      (handleSkipCommand message q).effects =
        [Effect.send message.channel Notice.nothingPlaying]) ∧
    (q.isPlaying = true → q.songs.length ≤ 1 →
      (handleSkipCommand message q).effects =
        [Effect.send message.channel Notice.noMoreSongs]) ∧
    (∀ (player : AudioPlayer) (a b : Song) (rest : List Song),
      q.isPlaying = true → q.player = some player → q.songs = a :: b :: rest →
      (handleSkipCommand message q).effects =
        [Effect.stop, Effect.send message.channel Notice.skipped] ∧
      step env (handleSkipCommand message q).queue Input.idle =
        playNextSong env player.message { q with songs := b :: rest } ∧
      (q.connection ≠ none → env.streamOk b = true →
        (step env (handleSkipCommand message q).queue Input.idle).queue.songs = b :: rest ∧
        (step env (handleSkipCommand message q).queue Input.idle).effects =
          [Effect.acquire b, Effect.play b])) := by
  have hqueue : (handleSkipCommand message q).queue = q := by
    unfold handleSkipCommand
    split
    · rfl
    · split
      · rfl
      · split <;> rfl
  refine ⟨hqueue, ?_, ?_, ?_⟩
  · intro hp
    simp [handleSkipCommand, hp]
  · intro hp hlen
    simp [handleSkipCommand, hp, hlen]
  · intro player a b rest hp hplayer hsongs
    rw [hqueue]
    refine ⟨?_, ?_, ?_⟩
    · simp [handleSkipCommand, hp, hplayer, hsongs]
    · simp [step, hplayer, onIdle, hsongs]
    · intro hconn hok
      obtain ⟨connection, hconnection⟩ := Option.ne_none_iff_exists'.mp hconn
      simp [step, hplayer, onIdle, hsongs, playNextSong, playNextSongLoop, ensureConnection,
        hconnection, hok]

/-- C4, amended, at the queue after `play A`, `play B` (nothing playing), at
the queue after `play A`, Playing (no song to skip to) and at the queue after
`play A`, Playing, `play B` (skip from A to B). -/
theorem C4_skip_witness :
    (handleSkipCommand sampleMessage (run freshQueue [playA, playB]).queue).effects =
        [Effect.send sampleMessage.channel Notice.nothingPlaying] ∧
    (handleSkipCommand sampleMessage
        (run freshQueue [playA, (envOk, Input.playing)]).queue).effects =
        [Effect.send sampleMessage.channel Notice.noMoreSongs] ∧
    ((handleSkipCommand sampleMessage
        (run freshQueue [playA, (envOk, Input.playing), playB]).queue).effects =
        [Effect.stop, Effect.send sampleMessage.channel Notice.skipped] ∧
      (step envOk (handleSkipCommand sampleMessage
        (run freshQueue [playA, (envOk, Input.playing), playB]).queue).queue Input.idle).queue.songs =
        [songB] ∧
      (step envOk (handleSkipCommand sampleMessage
        (run freshQueue [playA, (envOk, Input.playing), playB]).queue).queue Input.idle).effects =
        [Effect.acquire songB, Effect.play songB]) :=
  ⟨(C4_skip envOk sampleMessage (run freshQueue [playA, playB]).queue).2.1 (by decide),
   (C4_skip envOk sampleMessage
      (run freshQueue [playA, (envOk, Input.playing)]).queue).2.2.1 (by decide) (by decide),
   ((C4_skip envOk sampleMessage
      (run freshQueue [playA, (envOk, Input.playing), playB]).queue).2.2.2
      { song := songA, message := sampleMessage } songA songB []
      (by decide) (by decide) (by decide)).1,
   (((C4_skip envOk sampleMessage
      (run freshQueue [playA, (envOk, Input.playing), playB]).queue).2.2.2
      { song := songA, message := sampleMessage } songA songB []
      (by decide) (by decide) (by decide)).2.2 (by decide) (by decide)).1,
   (((C4_skip envOk sampleMessage
      (run freshQueue [playA, (envOk, Input.playing), playB]).queue).2.2.2
      { song := songA, message := sampleMessage } songA songB []
      (by decide) (by decide) (by decide)).2.2 (by decide) (by decide)).2⟩

/-! ## C5: the Playing event -/

/-- C5 at a failing run: `play A`, Playing, `play B`, Idle hands B to the player
with B at the head of `songs`; the Playing event that follows sets `isPlaying`
but its "Now Playing" notification carries the title, url, duration and
requester of A, the song captured when the player was created. -/
theorem C5_now_playing_shows_first_song :
    (run freshQueue [playA, (envOk, Input.playing), playB, (envOk, Input.idle)]).queue.songs
        = [songB] ∧
    (step envOk
        (run freshQueue [playA, (envOk, Input.playing), playB, (envOk, Input.idle)]).queue
        Input.playing).queue.isPlaying = true ∧
    (step envOk
        (run freshQueue [playA, (envOk, Input.playing), playB, (envOk, Input.idle)]).queue
        Input.playing).effects =
      [Effect.send "music" (Notice.nowPlaying "A" "https://youtu.be/a" "2:05" "dj" none)] ∧
    Notice.nowPlaying "A" "https://youtu.be/a" "2:05" "dj" none ≠
      Notice.nowPlaying songB.title songB.url (formatDuration songB.duration)
        songB.requester songB.thumbnail := by
  decide

/-! ## The notification channel is set wherever the engine runs -/

theorem playNextSongLoop_textChannel (env : Env) (message : Message) :
    ∀ (songs : List Song) (q : GuildQueue),
      (playNextSongLoop env message songs q).queue.textChannel = q.textChannel := by
  intro songs
  induction songs with
  | nil => intro q; rfl
  | cons song rest ih =>
    intro q
    unfold playNextSongLoop
    cases ensureConnection env message q with
    | none => rfl
    | some connection =>
      by_cases hs : env.streamOk song = true
      · simp [hs]
      · simp only [hs]
        exact ih _

theorem step_notifyReady (env : Env) (q : GuildQueue) (input : Input)
    (hq : NotifyReady q) : NotifyReady (step env q input).queue := by
  cases input with
  | play message query lookup now =>
    simp only [step, handlePlayCommand]
    cases env.voiceChannel message with
    | none => exact hq
    | some vc =>
      by_cases hquery : query = ""
      · simpa [hquery] using hq
      · cases lookup with
        | noResults => simpa [hquery] using hq
        | failed => simpa [hquery] using hq
        | found info =>
          by_cases hp : q.isPlaying = true
          · intro _; simp [hquery, hp]
          · intro _
            simp only [hquery, hp]
            simp [playNextSong, playNextSongLoop_textChannel]
  | skip message =>
    simp only [step, handleSkipCommand]
    split
    · exact hq
    · split
      · exact hq
      · split <;> exact hq
  | stop message =>
    simp only [step, handleStopCommand]
    split
    · exact hq
    · split
      · intro h; exact hq (Or.inr (by simpa using h))
      · intro h; exact hq (Or.inr (by simpa using h))
  | clear message =>
    simp only [step, handleClearCommand]
    split
    · exact hq
    · intro h; exact hq (Or.inr (by simpa using h))
  | pause message =>
    simp only [step, handlePauseCommand]
    split <;> exact hq
  | resume message =>
    simp only [step, handleResumeCommand]
    split <;> exact hq
  | playing =>
    simp only [step]
    cases hp : q.player with
    | none => exact hq
    | some player =>
      intro _
      exact hq (Or.inr (Or.inl (by simp [hp])))
  | idle =>
    simp only [step]
    cases hp : q.player with
    | none => exact hq
    | some player =>
      intro _
      simp only [onIdle, playNextSong, playNextSongLoop_textChannel]
      exact hq (Or.inr (Or.inl (by simp [hp])))
  | error =>
    simp only [step]
    cases hp : q.player with
    | none => exact hq
    | some player =>
      intro _
      simp only [onError, playNextSong, playNextSongLoop_textChannel]
      exact hq (Or.inr (Or.inl (by simp [hp])))

theorem run_notifyReady :
    ∀ (inputs : List (Env × Input)) (q : GuildQueue), NotifyReady q →
      NotifyReady (run q inputs).queue := by
  intro inputs
  induction inputs with
  | nil => intro q hq; exact hq
  | cons first rest ih =>
    intro q hq
    obtain ⟨env, input⟩ := first
    exact ih _ (step_notifyReady env q input hq)

theorem freshQueue_notifyReady : NotifyReady freshQueue := by
  intro h
  simp [freshQueue] at h

/-! ## C6: the player error event -/

theorem playNextSongLoop_started (env : Env) (message : Message) (song : Song)
    (rest : List Song) (q : GuildQueue) (connection : VoiceConnection)
    (hensure : ensureConnection env message q = some connection)
    (hok : env.streamOk song = true) :
    playNextSongLoop env message (song :: rest) q =
      { queue := { q with songs := song :: rest, connection := some connection,
                          player := some (match q.player with
                            | some player => player
                            | none => { song := song, message := message }) },
        effects := [Effect.acquire song, Effect.play song] } := by
  unfold playNextSongLoop
  simp only [hensure, hok, if_true]

theorem onError_removes_head (env : Env) (player : AudioPlayer) (q : GuildQueue)
    (a : Song) (rest : List Song) (channel : String)
    (hsongs : q.songs = a :: rest) (hchannel : q.textChannel = some channel) :
    (onError env player q).queue =
      (playNextSong env player.message { q with songs := rest }).queue ∧
    (onError env player q).effects =
      Effect.send channel Notice.playbackError ::
        (playNextSong env player.message { q with songs := rest }).effects ∧
    (rest = [] →
      (onError env player q).queue.songs = [] ∧
      (onError env player q).queue.isPlaying = false ∧
      (onError env player q).effects =
        [Effect.send channel Notice.playbackError, Effect.send channel Notice.queueEmpty]) ∧
    (∀ (b : Song) (others : List Song), rest = b :: others →
      (q.connection ≠ none ∨ env.voiceChannel player.message ≠ none) →
      env.streamOk b = true →
      (onError env player q).queue.songs = b :: others ∧
      (onError env player q).effects =
        [Effect.send channel Notice.playbackError, Effect.acquire b, Effect.play b]) := by
  refine ⟨?_, ?_, ?_, ?_⟩
  · simp [onError, hsongs]
  · simp [onError, hsongs, notify, hchannel]
  · intro hrest
    simp [onError, hsongs, hrest, playNextSong, playNextSongLoop, notify, hchannel]
  · intro b others hrest hconn hok
    have hsome : ∃ connection, ensureConnection env player.message q = some connection := by
      unfold ensureConnection
      cases hc : q.connection with
      | some connection => exact ⟨connection, rfl⟩
      | none =>
        cases hv : env.voiceChannel player.message with
        | some channelId => exact ⟨_, rfl⟩
        | none => simp [hc, hv] at hconn
    obtain ⟨connection, hconnection⟩ := hsome
    have htail : q.songs.tail = b :: others := by simp [hsongs, hrest]
    have hloop := playNextSongLoop_started env player.message b others
      { q with songs := q.songs.tail } connection hconnection hok
    have hnext : playNextSong env player.message { q with songs := q.songs.tail } =
        playNextSongLoop env player.message (b :: others) { q with songs := q.songs.tail } := by
      simp only [playNextSong, htail]
    simp only [onError, hnext, hloop]
    simp [notify, hchannel]

/-- C6: in every state reached from the fresh queue in which a player exists and
`songs` is `a :: rest`, the text channel is set and the player `error` handler
sends the playback-error message, removes the head `a` once and calls
`playNextSong` on `rest`; with `rest` empty, `isPlaying` becomes false and the
"Queue is empty" notification is sent; with `rest == b :: others`, a connection
available and the stream of `b` acquired, `b` is the song handed to the player
and `songs` is `b :: others`. -/
theorem C6_error_event (inputs : List (Env × Input)) (env : Env) (player : AudioPlayer)
    (a : Song) (rest : List Song)
    (hplayer : (run freshQueue inputs).queue.player = some player)
    (hsongs : (run freshQueue inputs).queue.songs = a :: rest) :
    ∃ channel, (run freshQueue inputs).queue.textChannel = some channel ∧
      (step env (run freshQueue inputs).queue Input.error).queue =
        (playNextSong env player.message
          { (run freshQueue inputs).queue with songs := rest }).queue ∧
      (step env (run freshQueue inputs).queue Input.error).effects =
        Effect.send channel Notice.playbackError ::
          (playNextSong env player.message
            { (run freshQueue inputs).queue with songs := rest }).effects ∧
      (rest = [] →
        (step env (run freshQueue inputs).queue Input.error).queue.songs = [] ∧
        (step env (run freshQueue inputs).queue Input.error).queue.isPlaying = false ∧
        (step env (run freshQueue inputs).queue Input.error).effects =
          [Effect.send channel Notice.playbackError, Effect.send channel Notice.queueEmpty]) ∧
      (∀ (b : Song) (others : List Song), rest = b :: others →
        ((run freshQueue inputs).queue.connection ≠ none ∨
          env.voiceChannel player.message ≠ none) →
        env.streamOk b = true →
        (step env (run freshQueue inputs).queue Input.error).queue.songs = b :: others ∧
        (step env (run freshQueue inputs).queue Input.error).effects =
          [Effect.send channel Notice.playbackError, Effect.acquire b, Effect.play b]) := by
  have hready := run_notifyReady inputs freshQueue freshQueue_notifyReady
  obtain ⟨channel, hchannel⟩ :=
    Option.ne_none_iff_exists'.mp (hready (Or.inl (by simp [hsongs])))
  refine ⟨channel, hchannel, ?_⟩
  have hstep : step env (run freshQueue inputs).queue Input.error =
      onError env player (run freshQueue inputs).queue := by
    simp [step, hplayer]
  rw [hstep]
  exact onError_removes_head env player _ a rest channel hsongs hchannel

/-- C6 at the queue after `play A`, Playing, `play B` (the error hands B to the
player) and at the queue after `play A`, Playing (the error empties the queue). -/
theorem C6_error_event_witness :
    (∃ channel,
      (run freshQueue [playA, (envOk, Input.playing), playB]).queue.textChannel = some channel ∧
      (step envOk (run freshQueue [playA, (envOk, Input.playing), playB]).queue
        Input.error).queue.songs = [songB] ∧
      (step envOk (run freshQueue [playA, (envOk, Input.playing), playB]).queue
        Input.error).effects =
        [Effect.send channel Notice.playbackError, Effect.acquire songB, Effect.play songB]) ∧
    (∃ channel,
      (run freshQueue [playA, (envOk, Input.playing)]).queue.textChannel = some channel ∧
      (step envOk (run freshQueue [playA, (envOk, Input.playing)]).queue
        Input.error).queue.songs = [] ∧
      (step envOk (run freshQueue [playA, (envOk, Input.playing)]).queue
        Input.error).queue.isPlaying = false ∧
      (step envOk (run freshQueue [playA, (envOk, Input.playing)]).queue
        Input.error).effects =
        [Effect.send channel Notice.playbackError, Effect.send channel Notice.queueEmpty]) := by
  constructor
  · obtain ⟨channel, hchannel, _, _, _, hnext⟩ :=
      C6_error_event [playA, (envOk, Input.playing), playB] envOk
        { song := songA, message := sampleMessage } songA [songB] (by decide) (by decide)
    exact ⟨channel, hchannel, hnext songB [] rfl (Or.inl (by decide)) (by decide)⟩
  · obtain ⟨channel, hchannel, _, _, hlast, _⟩ :=
      C6_error_event [playA, (envOk, Input.playing)] envOk
        { song := songA, message := sampleMessage } songA [] (by decide) (by decide)
    exact ⟨channel, hchannel, hlast rfl⟩

/-! ## C7: every stream acquisition fails -/

theorem playNextSongLoop_all_fail (env : Env) (message : Message) :
    ∀ (songs : List Song) (q : GuildQueue) (connection : VoiceConnection) (channel : String),
      q.connection = some connection → q.textChannel = some channel →
      (∀ song ∈ songs, env.streamOk song = false) →
      playNextSongLoop env message songs q =
        { queue := { q with songs := [], isPlaying := false },
          effects :=
            songs.flatMap (fun song =>
              [Effect.acquire song, Effect.send channel Notice.failedToPlay]) ++
            [Effect.send channel Notice.queueEmpty] } := by
  intro songs
  induction songs with
  | nil =>
    intro q connection channel _ hchannel _
    simp [playNextSongLoop, notify, hchannel]
  | cons song rest ih =>
    intro q connection channel hconnection hchannel hfail
    have hsong : env.streamOk song = false := hfail song (List.mem_cons_self _ _)
    have hrest : ∀ s ∈ rest, env.streamOk s = false :=
      fun s hs => hfail s (List.mem_cons_of_mem _ hs)
    have hensure : ensureConnection env message q = some connection := by
      simp [ensureConnection, hconnection]
    have hnext := ih { q with connection := some connection } connection channel rfl
      hchannel hrest
    unfold playNextSongLoop
    simp only [hensure, hsong]
    rw [hnext]
    simp [notify, hchannel, hconnection]

theorem playNextSongWithin_of_lt (env : Env) (message : Message) :
    ∀ (songs : List Song) (depth : Nat) (q : GuildQueue), songs.length < depth →
      playNextSongWithin env message depth songs q =
        CallResult.returned (playNextSongLoop env message songs q) := by
  intro songs
  induction songs with
  | nil =>
    intro depth q hlt
    cases depth with
    | zero => exact absurd hlt (Nat.lt_irrefl 0)
    | succ d => rfl
  | cons song rest ih =>
    intro depth q hlt
    cases depth with
    | zero => exact absurd hlt (Nat.not_lt_zero _)
    | succ d =>
      have hrest : rest.length < d := by
        simp only [List.length_cons] at hlt
        omega
      unfold playNextSongWithin playNextSongLoop
      cases ensureConnection env message q with
      | none => rfl
      | some connection =>
        by_cases hs : env.streamOk song = true
        · simp only [hs, if_true]
        · simp only [hs, ih d _ hrest]
          rfl

theorem playNextSongWithin_all_fail_exhausted (env : Env) (message : Message) :
    ∀ (depth : Nat) (songs : List Song) (q : GuildQueue) (connection : VoiceConnection)
      (channel : String),
      q.connection = some connection → q.textChannel = some channel →
      (∀ song ∈ songs, env.streamOk song = false) → depth ≤ songs.length →
      playNextSongWithin env message depth songs q =
        CallResult.stackExhausted
          { queue := { q with songs := songs.drop depth },
            effects :=
              (songs.take depth).flatMap (fun song =>
                [Effect.acquire song, Effect.send channel Notice.failedToPlay]) } := by
  intro depth
  induction depth with
  | zero =>
    intro songs q connection channel _ _ _ _
    simp [playNextSongWithin]
  | succ d ih =>
    intro songs q connection channel hconnection hchannel hfail hle
    cases songs with
    | nil => simp at hle
    | cons song rest =>
      have hsong : env.streamOk song = false := hfail song (List.mem_cons_self _ _)
      have hrest : ∀ s ∈ rest, env.streamOk s = false :=
        fun s hs => hfail s (List.mem_cons_of_mem _ hs)
      have hlen : d ≤ rest.length := by
        simp only [List.length_cons] at hle
        omega
      have hensure : ensureConnection env message q = some connection := by
        simp [ensureConnection, hconnection]
      have hnext := ih rest { q with connection := some connection } connection channel rfl
        hchannel hrest hlen
      unfold playNextSongWithin
      simp only [hensure, hsong]
      rw [hnext]
      simp [notify, hchannel, hconnection]

/-- C7: for a queue with a live connection and a text channel whose songs all
fail to give a stream, `playNextSong` returns as the claim says when the call
stack holds one nested call per song and one more (each song attempted once and
removed, in queue order, with one "Failed to play" message each, then `songs`
empty, `isPlaying == false` and one "Queue is empty" message); when only
`depth <= n` nested calls fit, it ends in the stack error instead, after `depth`
songs, with the other songs left in `songs`, `isPlaying` unchanged and no
"Queue is empty" message. -/
theorem C7_all_streams_fail (env : Env) (message : Message) (depth : Nat) (q : GuildQueue)
    (connection : VoiceConnection) (channel : String)
    (hconnection : q.connection = some connection) (hchannel : q.textChannel = some channel)
    (hfail : ∀ song ∈ q.songs, env.streamOk song = false) :
    (q.songs.length < depth →
      playNextSongWithin env message depth q.songs q =
        CallResult.returned
          { queue := { q with songs := [], isPlaying := false },
            effects :=
              q.songs.flatMap (fun song =>
                [Effect.acquire song, Effect.send channel Notice.failedToPlay]) ++
              [Effect.send channel Notice.queueEmpty] }) ∧
    (depth ≤ q.songs.length →
      playNextSongWithin env message depth q.songs q =
        CallResult.stackExhausted
          { queue := { q with songs := q.songs.drop depth },
            effects :=
              (q.songs.take depth).flatMap (fun song =>
                [Effect.acquire song, Effect.send channel Notice.failedToPlay]) }) := by
  constructor
  · intro hlt
    rw [playNextSongWithin_of_lt env message q.songs depth q hlt,
      playNextSongLoop_all_fail env message q.songs q connection channel hconnection hchannel
        hfail]
  · intro hle
    exact playNextSongWithin_all_fail_exhausted env message depth q.songs q connection channel
      hconnection hchannel hfail hle

/-- C7 at the queue after `play A`, Playing, `play B` with room for three nested
calls (A then B are attempted and dropped, then the queue is reported empty),
and at a queue of 5000 failing songs with room for 4830 nested calls (the call
ends in the stack error with 170 songs left). -/
theorem C7_all_streams_fail_witness :
    playNextSongWithin envNoStream sampleMessage 3
        (run freshQueue [playA, (envOk, Input.playing), playB]).queue.songs
        (run freshQueue [playA, (envOk, Input.playing), playB]).queue =
      CallResult.returned
        { queue := { (run freshQueue [playA, (envOk, Input.playing), playB]).queue with
                     songs := [], isPlaying := false },
          effects :=
            [Effect.acquire songA, Effect.send "music" Notice.failedToPlay,
             Effect.acquire songB, Effect.send "music" Notice.failedToPlay,
             Effect.send "music" Notice.queueEmpty] } ∧
    playNextSongWithin envNoStream sampleMessage 4830 longQueue.songs longQueue =
      CallResult.stackExhausted
        { queue := { longQueue with songs := longQueue.songs.drop 4830 },
          effects :=
            (longQueue.songs.take 4830).flatMap (fun song =>
              [Effect.acquire song, Effect.send "music" Notice.failedToPlay]) } ∧
    (longQueue.songs.drop 4830).length = 170 :=
  ⟨((C7_all_streams_fail envNoStream sampleMessage 3
      (run freshQueue [playA, (envOk, Input.playing), playB]).queue
      { channelId := "vc" } "music" (by decide) (by decide) (fun _ _ => rfl)).1
      (by decide)).trans (by decide),
   (C7_all_streams_fail envNoStream sampleMessage 4830 longQueue
      { channelId := "vc" } "music" rfl rfl (fun _ _ => rfl)).2
      (by
        show 4830 ≤ (List.replicate 5000 songA).length
        rw [List.length_replicate]
        norm_num),
   by
    show ((List.replicate 5000 songA).drop 4830).length = 170
    rw [List.length_drop, List.length_replicate]⟩

/-! ## C9: play and the start of playback -/

/-- C9 at a failing run: after `play A` the queue holds A, A has been handed to
the player and the Playing event has not come yet; the `play B` that follows
appends B and calls `playNextSong` although the queue was not empty, so that
the stream of A is acquired and handed to the player a second time. -/
theorem C9_second_play_restarts_head :
    (run freshQueue [playA]).queue.songs = [songA] ∧
    (run freshQueue [playA]).queue.isPlaying = false ∧
    (run freshQueue [playA]).effects =
      [Effect.send "music" Notice.searching,
       Effect.send "music" (Notice.addedToQueue "A" "https://youtu.be/a" "2:05" 1 "dj" none),
       Effect.acquire songA, Effect.play songA] ∧
    (handlePlayCommand envOk sampleMessage "B" (Lookup.found infoB) 1
        (run freshQueue [playA]).queue).queue.songs = [songA, songB] ∧
    (handlePlayCommand envOk sampleMessage "B" (Lookup.found infoB) 1
        (run freshQueue [playA]).queue).effects =
      [Effect.send "music" Notice.searching,
       Effect.send "music" (Notice.addedToQueue "B" "https://youtu.be/b" "0:59" 2 "dj" none),
       Effect.acquire songA, Effect.play songA] := by
  decide

/-! ## C10: the guild queue store -/

theorem Store.get_set_self (queues : Store) (guildId : String) (q : GuildQueue) :
    (queues.set guildId q).get guildId = some q := by
  induction queues with
  | nil => simp [Store.set, Store.get]
  | cons entry rest ih =>
    obtain ⟨k, v⟩ := entry
    by_cases hk : k = guildId
    · simp [Store.set, Store.get, hk]
    · simp [Store.set, Store.get, hk, ih]

theorem Store.get_set_other (queues : Store) (guildId other : String) (q : GuildQueue)
    (hne : other ≠ guildId) : (queues.set guildId q).get other = queues.get other := by
  induction queues with
  | nil =>
    have hne2 : ¬ guildId = other := fun h => hne h.symm
    simp [Store.set, Store.get, hne2]
  | cons entry rest ih =>
    obtain ⟨k, v⟩ := entry
    by_cases hk : k = guildId
    · subst hk
      have hko : ¬ k = other := fun h => hne h.symm
      simp [Store.set, Store.get, hko]
    · by_cases hko : k = other
      · subst hko
        simp [Store.set, Store.get, hk]
      · simp [Store.set, Store.get, hk, hko, ih]

theorem Store.set_of_get_none (queues : Store) (guildId : String) (q : GuildQueue)
    (hnone : queues.get guildId = none) : queues.set guildId q = queues ++ [(guildId, q)] := by
  induction queues with
  | nil => rfl
  | cons entry rest ih =>
    obtain ⟨k, v⟩ := entry
    by_cases hk : k = guildId
    · simp [Store.get, hk] at hnone
    · simp only [Store.get, hk, if_false] at hnone
      simp [Store.set, hk, ih hnone]

/-- C10: `getQueue` returns the queue stored for the guild id and leaves the
store unchanged when there is one; otherwise it returns a fresh queue (songs
empty, connection, player and textChannel null, isPlaying false, volume 0.5),
stores it under the guild id behind the existing entries and leaves the entry
of every other guild id unchanged; a second `getQueue` for the same guild id
returns the same queue and the same store as the first. -/
theorem C10_getQueue (queues : Store) (guildId : String) :
    (∀ q, queues.get guildId = some q → getQueue queues guildId = (some q, queues)) ∧
    (queues.get guildId = none →
      getQueue queues guildId = (some freshQueue, queues ++ [(guildId, freshQueue)]) ∧
      (getQueue queues guildId).2.get guildId = some freshQueue ∧
      ∀ other, other ≠ guildId → (getQueue queues guildId).2.get other = queues.get other) ∧
    getQueue (getQueue queues guildId).2 guildId = getQueue queues guildId ∧
    (freshQueue.songs = [] ∧ freshQueue.connection = none ∧ freshQueue.player = none ∧
      freshQueue.textChannel = none ∧ freshQueue.isPlaying = false ∧
      freshQueue.volume = 1 / 2) := by
  refine ⟨?_, ?_, ?_, ?_⟩
  · intro q hq
    simp [getQueue, Store.has, hq]
  · intro hnone
    have hget := Store.get_set_self queues guildId freshQueue
    refine ⟨?_, ?_, ?_⟩
    · have hset := Store.set_of_get_none queues guildId freshQueue hnone
      simp only [getQueue, Store.has, hnone, Option.isSome_none, Bool.not_false, if_true, hget]
      rw [hset]
    · simp [getQueue, Store.has, hnone, hget]
    · intro other hne
      simp [getQueue, Store.has, hnone, Store.get_set_other queues guildId other _ hne]
  · cases hq : queues.get guildId with
    | some q => simp [getQueue, Store.has, hq]
    | none =>
      have hget := Store.get_set_self queues guildId freshQueue
      simp [getQueue, Store.has, hq, hget]
  · refine ⟨rfl, rfl, rfl, rfl, rfl, ?_⟩
    apply Rat.ext <;> simp [freshQueue, defaultVolume]

/-- C10 at a store that holds a playing queue for "g1": `getQueue` for "g1"
returns it and changes nothing, `getQueue` for "g2" stores a fresh queue behind
it and leaves the entry of "g1" as it was. -/
theorem C10_getQueue_witness :
    getQueue [("g1", (run freshQueue [playA]).queue)] "g1" =
      (some (run freshQueue [playA]).queue, [("g1", (run freshQueue [playA]).queue)]) ∧
    (getQueue [("g1", (run freshQueue [playA]).queue)] "g2" =
        (some freshQueue,
          [("g1", (run freshQueue [playA]).queue)] ++ [("g2", freshQueue)]) ∧
      (getQueue [("g1", (run freshQueue [playA]).queue)] "g2").2.get "g2" = some freshQueue ∧
      ∀ other, other ≠ "g2" →
        (getQueue [("g1", (run freshQueue [playA]).queue)] "g2").2.get other =
          Store.get [("g1", (run freshQueue [playA]).queue)] other) :=
  ⟨(C10_getQueue [("g1", (run freshQueue [playA]).queue)] "g1").1
      (run freshQueue [playA]).queue (by decide),
   (C10_getQueue [("g1", (run freshQueue [playA]).queue)] "g2").2.1 (by decide)⟩

/-! ## C8: first in, first out -/

theorem ensureConnection_of_voice (env : Env) (message : Message) (q : GuildQueue)
    (hvoice : ∀ m, env.voiceChannel m ≠ none) :
    ∃ connection, ensureConnection env message q = some connection := by
  unfold ensureConnection
  cases q.connection with
  | some connection => exact ⟨connection, rfl⟩
  | none =>
    cases hv : env.voiceChannel message with
    | some channelId => exact ⟨_, rfl⟩
    | none => exact absurd hv (hvoice message)

theorem playNextSong_started (env : Env) (message : Message) (q : GuildQueue)
    (head : Song) (rest : List Song)
    (hvoice : ∀ m, env.voiceChannel m ≠ none) (hstream : ∀ song, env.streamOk song = true)
    (hsongs : q.songs = head :: rest) :
    (playNextSong env message q).queue.songs = head :: rest ∧
    (playNextSong env message q).queue.isPlaying = q.isPlaying ∧
    (playNextSong env message q).queue.player ≠ none ∧
    (playNextSong env message q).effects = [Effect.acquire head, Effect.play head] := by
  obtain ⟨connection, hensure⟩ := ensureConnection_of_voice env message q hvoice
  have hloop := playNextSongLoop_started env message head rest q connection hensure
    (hstream head)
  have hnext : playNextSong env message q = playNextSongLoop env message (head :: rest) q := by
    simp only [playNextSong, hsongs]
  rw [hnext, hloop]
  simp

theorem handlePlayCommand_enqueues (env : Env) (message : Message) (query : String)
    (info : VideoInfo) (now : Nat) (q : GuildQueue) (head : Song) (rest : List Song)
    (hvoice : ∀ m, env.voiceChannel m ≠ none) (hstream : ∀ song, env.streamOk song = true)
    (hquery : query ≠ "")
    (hsongs : q.songs ++ [mkSong message query info now] = head :: rest) :
    (handlePlayCommand env message query (Lookup.found info) now q).queue.songs =
      head :: rest ∧
    (q.isPlaying = true →
      (handlePlayCommand env message query (Lookup.found info) now q).queue.player = q.player ∧
      playedSongs (handlePlayCommand env message query (Lookup.found info) now q).effects
        = []) ∧
    (q.isPlaying = false →
      (handlePlayCommand env message query (Lookup.found info) now q).queue.player ≠ none ∧
      playedSongs (handlePlayCommand env message query (Lookup.found info) now q).effects
        = [head]) := by
  obtain ⟨channelId, hchannel⟩ := Option.ne_none_iff_exists'.mp (hvoice message)
  by_cases hp : q.isPlaying = true
  · refine ⟨?_, ?_, ?_⟩
    · simp [handlePlayCommand, hchannel, hquery, hp, hsongs]
    · intro _
      simp [handlePlayCommand, hchannel, hquery, hp, playedSongs]
    · intro hfalse
      rw [hp] at hfalse
      exact absurd hfalse (by decide)
  · have hfalse : q.isPlaying = false := by simpa using hp
    have hstart := playNextSong_started env message
      { q with songs := q.songs ++ [mkSong message query info now],
               textChannel := some message.channel } head rest hvoice hstream hsongs
    obtain ⟨h1, _, h3, h4⟩ := hstart
    simp only [hfalse] at h1 h3 h4
    refine ⟨?_, ?_, ?_⟩
    · simp only [handlePlayCommand, hchannel, hquery, hfalse]
      simpa using h1
    · intro htrue
      exact absurd htrue hp
    · intro _
      simp only [handlePlayCommand, hchannel, hquery, hfalse]
      refine ⟨by simpa using h3, ?_⟩
      simp [h4, playedSongs]

theorem onIdle_advances (env : Env) (player : AudioPlayer) (q : GuildQueue)
    (head : Song) (rest : List Song)
    (hvoice : ∀ m, env.voiceChannel m ≠ none) (hstream : ∀ song, env.streamOk song = true)
    (hsongs : q.songs = head :: rest) :
    (onIdle env player q).queue.songs = rest ∧
    (rest = [] →
      (onIdle env player q).queue.isPlaying = false ∧
      playedSongs (onIdle env player q).effects = []) ∧
    (∀ (next : Song) (others : List Song), rest = next :: others →
      (onIdle env player q).queue.player ≠ none ∧
      playedSongs (onIdle env player q).effects = [next]) := by
  have htail : q.songs.tail = rest := by simp [hsongs]
  cases hrest : rest with
  | nil =>
    have hempty : q.songs.tail = [] := by rw [htail, hrest]
    simp [onIdle, playNextSong, hempty, playNextSongLoop, playedSongs, notify]
    cases q.textChannel <;> simp
  | cons next others =>
    have hstart := playNextSong_started env player.message
      { q with songs := q.songs.tail } next others hvoice hstream (by rw [htail, hrest])
    obtain ⟨h1, _, h3, h4⟩ := hstart
    refine ⟨h1, ?_, ?_⟩
    · intro h
      exact absurd h (by simp)
    · intro next2 others2 heq
      have hnext : next = next2 := (List.cons.inj heq).1
      subst hnext
      refine ⟨h3, ?_⟩
      simp [onIdle, h4, playedSongs]

theorem playedSongs_notify (q : GuildQueue) (notice : Notice) :
    playedSongs (notify q notice) = [] := by
  unfold notify
  cases q.textChannel <;> simp [playedSongs]

theorem lt_length_of_getElem? {α : Type} (l : List α) (k : Nat) (x : α)
    (h : l[k]? = some x) : k < l.length := by
  obtain ⟨hk, _⟩ := List.getElem?_eq_some.mp h
  exact hk

theorem getElem?_of_drop_eq_cons {α : Type} (l : List α) (n : Nat) (head : α)
    (rest : List α) (h : l.drop n = head :: rest) :
    l[n]? = some head ∧ l.drop (n + 1) = rest ∧ n < l.length := by
  refine ⟨?_, ?_, ?_⟩
  · have hhead := List.head?_drop l n
    rw [h] at hhead
    simpa using hhead.symm
  · have htail := List.tail_drop l n
    rw [h] at htail
    simpa using htail.symm
  · by_contra hlt
    have hnil := List.drop_eq_nil_of_le (Nat.le_of_not_lt hlt)
    rw [h] at hnil
    exact absurd hnil (by simp)

theorem Session.advance_consistent (env : Env) (s : Session) (input : Input)
    (hvoice : ∀ m, env.voiceChannel m ≠ none) (hstream : ∀ song, env.streamOk song = true)
    (hs : s.Consistent) (hin : admissible s.loaded input = true) :
    (s.advance env input).Consistent := by
  cases input with
  | play message query lookup now =>
    cases lookup with
    | noResults => simp [admissible] at hin
    | failed => simp [admissible] at hin
    | found info =>
      have hquery : query ≠ "" := by simpa [admissible] using hin
      obtain ⟨head, rest, hcons⟩ :
          ∃ head rest, s.queue.songs ++ [mkSong message query info now] = head :: rest := by
        cases s.queue.songs with
        | nil => exact ⟨_, [], rfl⟩
        | cons a t => exact ⟨a, t ++ [mkSong message query info now], rfl⟩
      obtain ⟨hsongs, hplaying, hidle⟩ := handlePlayCommand_enqueues env message query info
        now s.queue head rest hvoice hstream hquery hcons
      have hdrop : (s.enqueued ++ [mkSong message query info now]).drop s.ended
          = head :: rest := by
        rw [List.drop_append_of_le_length hs.ended_le, ← hs.songs_eq, hcons]
      obtain ⟨hhead, _, _⟩ := getElem?_of_drop_eq_cons _ _ _ _ hdrop
      have hnew : ∀ (k : Nat) (song : Song),
          (k, song) ∈ s.handed ++ [(s.ended, head)] ↔
            (s.enqueued ++ [mkSong message query info now])[k]? = some song ∧
              k ≤ s.ended := by
        intro k song
        rw [List.mem_append, hs.handed_iff k song]
        constructor
        · rintro (⟨hk, hle⟩ | hmem)
          · have hlt := lt_length_of_getElem? _ _ _ hk
            exact ⟨by rw [List.getElem?_append_left hlt]; exact hk, hle⟩
          · simp only [List.mem_singleton, Prod.mk.injEq] at hmem
            obtain ⟨rfl, rfl⟩ := hmem
            exact ⟨hhead, Nat.le_refl _⟩
        · rintro ⟨hk, hle⟩
          by_cases hlt : k < s.enqueued.length
          · left
            rw [List.getElem?_append_left hlt] at hk
            exact ⟨hk, hle⟩
          · right
            have hke : k = s.ended := by
              have := hs.ended_le
              omega
            subst hke
            rw [hhead] at hk
            simp only [List.mem_singleton, Prod.mk.injEq, true_and]
            exact (Option.some.inj hk).symm
      by_cases hp : s.queue.isPlaying = true
      · obtain ⟨hplayer, hplayed⟩ := hplaying hp
        have hne : s.queue.songs ≠ [] := by
          intro hnil
          have := hs.idle_flag hnil
          rw [hp] at this
          exact absurd this (by decide)
        have hloaded : s.loaded = true := hs.loaded_iff.mpr hne
        have hold : (s.ended, head) ∈ s.handed := by
          rw [hs.handed_iff]
          refine ⟨?_, Nat.le_refl _⟩
          obtain ⟨a, t, hat⟩ := List.exists_cons_of_ne_nil hne
          have hah : a = head := by
            rw [hat] at hcons
            exact (List.cons.inj hcons).1
          have hd : s.enqueued.drop s.ended = a :: t := by rw [← hs.songs_eq, hat]
          rw [← hah]
          exact (getElem?_of_drop_eq_cons _ _ _ _ hd).1
        exact {
          ended_le := by
            show s.ended ≤ (s.enqueued ++ [mkSong message query info now]).length
            have := hs.ended_le
            simp only [List.length_append, List.length_singleton]
            omega
          songs_eq := by
            show (handlePlayCommand env message query (Lookup.found info) now s.queue).queue.songs
              = (s.enqueued ++ [mkSong message query info now]).drop s.ended
            rw [hsongs, hdrop]
          loaded_iff := by
            show (s.loaded || !(playedSongs (handlePlayCommand env message query
              (Lookup.found info) now s.queue).effects).isEmpty) = true ↔
              (handlePlayCommand env message query (Lookup.found info) now s.queue).queue.songs
                ≠ []
            rw [hsongs, hloaded]
            simp
          idle_flag := by
            show (handlePlayCommand env message query (Lookup.found info) now s.queue).queue.songs
              = [] → _
            rw [hsongs]
            intro h
            exact absurd h (by simp)
          has_player := by
            show _ → (handlePlayCommand env message query (Lookup.found info) now
              s.queue).queue.player ≠ none
            intro _
            rw [hplayer]
            exact hs.has_player hne
          handed_iff := by
            intro k song
            show (k, song) ∈ s.handed ++ (playedSongs (handlePlayCommand env message query
              (Lookup.found info) now s.queue).effects).map (fun x => (s.ended, x)) ↔
              (s.enqueued ++ [mkSong message query info now])[k]? = some song ∧ k ≤ s.ended
            rw [hplayed, List.map_nil, List.append_nil, ← hnew k song, List.mem_append]
            constructor
            · intro h
              exact Or.inl h
            · rintro (h | h)
              · exact h
              · simp only [List.mem_singleton] at h
                rw [h]
                exact hold }
      · have hfalse : s.queue.isPlaying = false := by simpa using hp
        obtain ⟨hplayer, hplayed⟩ := hidle hfalse
        exact {
          ended_le := by
            show s.ended ≤ (s.enqueued ++ [mkSong message query info now]).length
            have := hs.ended_le
            simp only [List.length_append, List.length_singleton]
            omega
          songs_eq := by
            show (handlePlayCommand env message query (Lookup.found info) now s.queue).queue.songs
              = (s.enqueued ++ [mkSong message query info now]).drop s.ended
            rw [hsongs, hdrop]
          loaded_iff := by
            show (s.loaded || !(playedSongs (handlePlayCommand env message query
              (Lookup.found info) now s.queue).effects).isEmpty) = true ↔
              (handlePlayCommand env message query (Lookup.found info) now s.queue).queue.songs
                ≠ []
            rw [hsongs, hplayed]
            simp
          idle_flag := by
            show (handlePlayCommand env message query (Lookup.found info) now s.queue).queue.songs
              = [] → _
            rw [hsongs]
            intro h
            exact absurd h (by simp)
          has_player := fun _ => hplayer
          handed_iff := by
            intro k song
            show (k, song) ∈ s.handed ++ (playedSongs (handlePlayCommand env message query
              (Lookup.found info) now s.queue).effects).map (fun x => (s.ended, x)) ↔
              (s.enqueued ++ [mkSong message query info now])[k]? = some song ∧ k ≤ s.ended
            rw [hplayed]
            exact hnew k song }
  | playing =>
    have hloaded : s.loaded = true := by simpa [admissible] using hin
    have hne : s.queue.songs ≠ [] := hs.loaded_iff.mp hloaded
    obtain ⟨player, hplayer⟩ := Option.ne_none_iff_exists'.mp (hs.has_player hne)
    have hstep : step env s.queue Input.playing = onPlaying player s.queue := by
      simp [step, hplayer]
    have hplayed : playedSongs (step env s.queue Input.playing).effects = [] := by
      rw [hstep]
      exact playedSongs_notify _ _
    exact {
      ended_le := hs.ended_le
      songs_eq := by
        show (step env s.queue Input.playing).queue.songs = s.enqueued.drop s.ended
        rw [hstep]
        exact hs.songs_eq
      loaded_iff := by
        show (s.loaded || !(playedSongs (step env s.queue Input.playing).effects).isEmpty)
          = true ↔ (step env s.queue Input.playing).queue.songs ≠ []
        rw [hplayed, hstep, hloaded]
        simp only [onPlaying]
        simp [hne]
      idle_flag := by
        show (step env s.queue Input.playing).queue.songs = [] → _
        rw [hstep]
        intro h
        exact absurd h hne
      has_player := by
        show _ → (step env s.queue Input.playing).queue.player ≠ none
        rw [hstep]
        intro _
        exact hs.has_player hne
      handed_iff := by
        intro k song
        show (k, song) ∈ s.handed ++ (playedSongs (step env s.queue Input.playing).effects).map
          (fun x => (s.ended, x)) ↔ s.enqueued[k]? = some song ∧ k ≤ s.ended
        rw [hplayed, List.map_nil, List.append_nil]
        exact hs.handed_iff k song }
  | idle =>
    have hloaded : s.loaded = true := by simpa [admissible] using hin
    have hne : s.queue.songs ≠ [] := hs.loaded_iff.mp hloaded
    obtain ⟨player, hplayer⟩ := Option.ne_none_iff_exists'.mp (hs.has_player hne)
    obtain ⟨head, rest, hcons⟩ := List.exists_cons_of_ne_nil hne
    have hstep : step env s.queue Input.idle = onIdle env player s.queue := by
      simp [step, hplayer]
    obtain ⟨hsongs, hlast, hmore⟩ := onIdle_advances env player s.queue head rest hvoice
      hstream hcons
    have hd : s.enqueued.drop s.ended = head :: rest := by rw [← hs.songs_eq, hcons]
    obtain ⟨_, hdrop, hlt⟩ := getElem?_of_drop_eq_cons _ _ _ _ hd
    rw [← hstep] at hsongs hlast hmore
    have hbase : (s.advance env Input.idle).ended ≤ (s.advance env Input.idle).enqueued.length ∧
        (s.advance env Input.idle).queue.songs =
          (s.advance env Input.idle).enqueued.drop (s.advance env Input.idle).ended := by
      constructor
      · show s.ended + 1 ≤ s.enqueued.length
        omega
      · show (step env s.queue Input.idle).queue.songs = s.enqueued.drop (s.ended + 1)
        rw [hsongs, hdrop]
    cases hrest : rest with
    | nil =>
      obtain ⟨hflag, hplayed⟩ := hlast hrest
      have hlen : s.enqueued.length = s.ended + 1 := by
        have hnil : s.enqueued.drop (s.ended + 1) = [] := by rw [hdrop, hrest]
        have := List.drop_eq_nil_iff.mp hnil
        omega
      exact {
        ended_le := hbase.1
        songs_eq := hbase.2
        loaded_iff := by
          show (!(playedSongs (step env s.queue Input.idle).effects).isEmpty) = true ↔
            (step env s.queue Input.idle).queue.songs ≠ []
          rw [hplayed, hsongs, hrest]
          simp
        idle_flag := fun _ => hflag
        has_player := by
          show (step env s.queue Input.idle).queue.songs ≠ [] → _
          rw [hsongs, hrest]
          intro h
          exact absurd rfl h
        handed_iff := by
          intro k song
          show (k, song) ∈ s.handed ++ (playedSongs (step env s.queue Input.idle).effects).map
            (fun x => (s.ended + 1, x)) ↔ s.enqueued[k]? = some song ∧ k ≤ s.ended + 1
          rw [hplayed, List.map_nil, List.append_nil, hs.handed_iff k song]
          constructor
          · rintro ⟨hk, hle⟩
            exact ⟨hk, Nat.le_succ_of_le hle⟩
          · rintro ⟨hk, _⟩
            have := lt_length_of_getElem? _ _ _ hk
            exact ⟨hk, by omega⟩ }
    | cons next others =>
      obtain ⟨hplayer2, hplayed⟩ := hmore next others hrest
      have hd2 : s.enqueued.drop (s.ended + 1) = next :: others := by rw [hdrop, hrest]
      obtain ⟨hnext, _, _⟩ := getElem?_of_drop_eq_cons _ _ _ _ hd2
      exact {
        ended_le := hbase.1
        songs_eq := hbase.2
        loaded_iff := by
          show (!(playedSongs (step env s.queue Input.idle).effects).isEmpty) = true ↔
            (step env s.queue Input.idle).queue.songs ≠ []
          rw [hplayed, hsongs, hrest]
          simp
        idle_flag := by
          show (step env s.queue Input.idle).queue.songs = [] → _
          rw [hsongs, hrest]
          intro h
          exact absurd h (by simp)
        has_player := fun _ => hplayer2
        handed_iff := by
          intro k song
          show (k, song) ∈ s.handed ++ (playedSongs (step env s.queue Input.idle).effects).map
            (fun x => (s.ended + 1, x)) ↔ s.enqueued[k]? = some song ∧ k ≤ s.ended + 1
          rw [hplayed, List.mem_append, hs.handed_iff k song]
          simp only [List.map_cons, List.map_nil, List.mem_singleton, Prod.mk.injEq]
          constructor
          · rintro (⟨hk, hle⟩ | ⟨rfl, rfl⟩)
            · exact ⟨hk, Nat.le_succ_of_le hle⟩
            · exact ⟨hnext, Nat.le_refl _⟩
          · rintro ⟨hk, hle⟩
            by_cases hke : k ≤ s.ended
            · exact Or.inl ⟨hk, hke⟩
            · have hkeq : k = s.ended + 1 := by omega
              subst hkeq
              rw [hnext] at hk
              exact Or.inr ⟨rfl, (Option.some.inj hk).symm⟩ }
  | skip message => simp [admissible] at hin
  | stop message => simp [admissible] at hin
  | clear message => simp [admissible] at hin
  | pause message => simp [admissible] at hin
  | resume message => simp [admissible] at hin
  | error => simp [admissible] at hin

theorem Session.start_consistent : Session.start.Consistent where
  ended_le := Nat.le_refl _
  songs_eq := rfl
  loaded_iff := by simp [Session.start, freshQueue]
  idle_flag := fun _ => rfl
  has_player := fun h => absurd rfl h
  handed_iff := by
    intro k song
    simp [Session.start]

theorem Session.foldl_consistent (env : Env)
    (hvoice : ∀ m, env.voiceChannel m ≠ none) (hstream : ∀ song, env.streamOk song = true) :
    ∀ (inputs : List Input) (s : Session), (s.nominal = true → s.Consistent) →
      (inputs.foldl (Session.advance env) s).nominal = true →
      (inputs.foldl (Session.advance env) s).Consistent := by
  intro inputs
  induction inputs with
  | nil => intro s hs hnominal; exact hs hnominal
  | cons input rest ih =>
    intro s hs hnominal
    rw [List.foldl_cons] at hnominal ⊢
    refine ih (s.advance env input) ?_ hnominal
    intro hadv
    have hboth : (s.nominal && admissible s.loaded input) = true := hadv
    rw [Bool.and_eq_true] at hboth
    exact Session.advance_consistent env s input hvoice hstream (hs hboth.1) hboth.2

theorem Session.foldl_queue (env : Env) :
    ∀ (inputs : List Input) (s : Session),
      (inputs.foldl (Session.advance env) s).queue =
        (run s.queue (inputs.map (fun input => (env, input)))).queue := by
  intro inputs
  induction inputs with
  | nil => intro s; rfl
  | cons input rest ih =>
    intro s
    rw [List.foldl_cons, ih]
    rfl

theorem Session.foldl_ended (env : Env) :
    ∀ (inputs : List Input) (s : Session),
      (inputs.foldl (Session.advance env) s).ended = s.ended + inputs.count Input.idle := by
  intro inputs
  induction inputs with
  | nil => intro s; rfl
  | cons input rest ih =>
    intro s
    rw [List.foldl_cons, ih]
    cases input <;> simp [Session.advance, endedAfter, List.count_cons]
    omega

theorem Session.foldl_enqueued (env : Env) :
    ∀ (inputs : List Input) (s : Session),
      (inputs.foldl (Session.advance env) s).enqueued = inputs.foldl enqueuedAfter s.enqueued := by
  intro inputs
  induction inputs with
  | nil => intro s; rfl
  | cons input rest ih =>
    intro s
    rw [List.foldl_cons, ih]
    rfl

/-- C8: in a run made of `play` commands that enqueue their song and of Playing
and Idle events of a player that holds a track, every author sitting in a voice
channel and every stream being acquired, the queue is the one `run` computes,
`ended` counts the Idle events, `enqueued` lists the songs of the `play`
commands in order, `songs` is `enqueued` without its first `ended` entries
(songs are appended at the tail, each completion removes only the head, the
order never changes), and a song is handed to the player with `k` tracks ended
exactly when it is entry `k` of `enqueued` and `k` is at most `ended`: the
descriptors reach playback in the order in which they were enqueued. -/
theorem C8_fifo (env : Env) (inputs : List Input)
    (hvoice : ∀ m, env.voiceChannel m ≠ none) (hstream : ∀ song, env.streamOk song = true)
    (hnominal : (session env inputs).nominal = true) :
    (session env inputs).queue =
      (run freshQueue (inputs.map (fun input => (env, input)))).queue ∧
    (session env inputs).ended = inputs.count Input.idle ∧
    (session env inputs).enqueued = inputs.foldl enqueuedAfter [] ∧
    (session env inputs).queue.songs =
      (session env inputs).enqueued.drop (session env inputs).ended ∧
    ∀ (k : Nat) (song : Song),
      (k, song) ∈ (session env inputs).handed ↔
        (session env inputs).enqueued[k]? = some song ∧ k ≤ (session env inputs).ended := by
  have hconsistent := Session.foldl_consistent env hvoice hstream inputs Session.start
    (fun _ => Session.start_consistent) hnominal
  refine ⟨Session.foldl_queue env inputs Session.start, ?_,
    Session.foldl_enqueued env inputs Session.start, hconsistent.songs_eq,
    hconsistent.handed_iff⟩
  have hended := Session.foldl_ended env inputs Session.start
  simpa [Session.start] using hended

/-- C8 at the session `play A`, Playing, `play B`, Idle, Playing: A was handed
to the player first, B after one track had ended. -/
theorem C8_fifo_witness :
    (session envOk sampleSession).nominal = true ∧
    (session envOk sampleSession).handed = [(0, songA), (1, songB)] ∧
    ((session envOk sampleSession).queue =
      (run freshQueue (sampleSession.map (fun input => (envOk, input)))).queue ∧
    (session envOk sampleSession).ended = sampleSession.count Input.idle ∧
    (session envOk sampleSession).enqueued = sampleSession.foldl enqueuedAfter [] ∧
    (session envOk sampleSession).queue.songs =
      (session envOk sampleSession).enqueued.drop (session envOk sampleSession).ended ∧
    ∀ (k : Nat) (song : Song),
      (k, song) ∈ (session envOk sampleSession).handed ↔
        (session envOk sampleSession).enqueued[k]? = some song ∧
          k ≤ (session envOk sampleSession).ended) :=
  ⟨by decide, by decide,
   C8_fifo envOk sampleSession (fun _ => Option.some_ne_none _) (fun _ => rfl) (by decide)⟩

/-! ## C11: the queue listing -/

/-- C11, as stated, fails: with A (125 s) and B (59 s) enqueued, the entries of
the listing are not "1. A - 2:05" and "2. B - 0:59": each entry wraps the title
in a bold link to the url and ends with the requester. -/
theorem C11_counterexample :
    ¬ (queueEntries (run freshQueue [playA, (envOk, Input.playing), playB]).queue.songs =
        ["1. A - 2:05", "2. B - 0:59"]) := by
  decide

/-- C11, amended: for a queue with `n >= 1` songs the queue command sends the
embed whose description joins, with newlines, `min n 10` entries, entry `i`
(from 0) being `queueLine i` of `songs[i]`: the number `i + 1`, the title as a
bold link to the url, `formatDuration` of the duration and the requester; the
"Total Songs" field is `n`, and the footer "... and n-10 more songs" is set
exactly when `n > 10`. -/
theorem C11_queue_listing (q : GuildQueue) (hsongs : q.songs ≠ []) :
    handleQueueCommand q =
      QueueReply.listing
        { description := "\n".intercalate (queueEntries q.songs),
          totalSongs := toString q.songs.length,
          footer :=
            if q.songs.length > 10 then
              some ("... and " ++ toString (q.songs.length - 10) ++ " more songs")
            else none } ∧
    (queueEntries q.songs).length = min q.songs.length 10 ∧
    (∀ (i : Nat) (song : Song), i < 10 → q.songs[i]? = some song →
      (queueEntries q.songs)[i]? = some (queueLine i song)) ∧
    (∀ (i : Nat) (song : Song), q.songs[i]? = some song →
      queueLine i song =
        toString (i + 1) ++ ". **[" ++ song.title ++ "](" ++ song.url ++ ")** - " ++
          formatDuration song.duration ++ " | *" ++ song.requester ++ "*") := by
  have hlen : ¬ q.songs.length = 0 := fun h => hsongs (List.length_eq_zero.mp h)
  refine ⟨?_, ?_, ?_, ?_⟩
  · simp only [handleQueueCommand, hlen, if_false]
  · simp only [queueEntries, List.length_mapIdx, List.length_take]
    exact Nat.min_comm _ _
  · intro i song hi hsong
    simp only [queueEntries, List.getElem?_mapIdx, List.getElem?_take_of_lt hi, hsong,
      Option.map_some']
  · intro i song _
    rfl

/-- C11, amended, at the queue after `play A`, Playing, `play B`: two entries,
total 2, no footer. -/
theorem C11_queue_listing_witness :
    handleQueueCommand (run freshQueue [playA, (envOk, Input.playing), playB]).queue =
      QueueReply.listing
        { description :=
            "1. **[A](https://youtu.be/a)** - 2:05 | *dj*\n2. **[B](https://youtu.be/b)** - 0:59 | *dj*",
          totalSongs := "2",
          footer := none } ∧
    (queueEntries (run freshQueue [playA, (envOk, Input.playing), playB]).queue.songs).length
      = min (run freshQueue [playA, (envOk, Input.playing), playB]).queue.songs.length 10 :=
  ⟨(C11_queue_listing (run freshQueue [playA, (envOk, Input.playing), playB]).queue
      (by decide)).1.trans (by decide),
   (C11_queue_listing (run freshQueue [playA, (envOk, Input.playing), playB]).queue
      (by decide)).2.1⟩

/-! ## C12: formatDuration -/

theorem padStart_two_digits :
    ∀ r, r < 60 →
      padStart (toString r) 2 '0' = String.mk [Nat.digitChar (r / 10), Nat.digitChar (r % 10)] := by
  decide

/-- C12, as stated, fails: the minutes part of `formatDuration 125`, the
characters before the colon, is not two characters long. -/
theorem C12_counterexample :
    ¬ (((formatDuration 125).data.takeWhile (fun c => c != ':')).length = 2) := by
  decide

/-- C12, amended: for every integer number of seconds `s` from 0 to `2 ^ 53`,
`formatDuration s` is the decimal numeral of `s / 60`, then ":", then the two
decimal digits of `s % 60` (tens, then units), so its length is that of the
numeral plus three; the function is total; 0 gives "0:00", 125 gives "2:05" and
59 gives "0:59". -/
theorem C12_formatDuration (s : Nat) (_hs : s ≤ 2 ^ 53) :
    formatDuration s =
      toString (s / 60) ++ ":" ++
        String.mk [Nat.digitChar (s % 60 / 10), Nat.digitChar (s % 60 % 10)] ∧
    (formatDuration s).length = (toString (s / 60)).length + 3 ∧
    formatDuration 0 = "0:00" ∧ formatDuration 125 = "2:05" ∧ formatDuration 59 = "0:59" := by
  have hsec := padStart_two_digits (s % 60) (Nat.mod_lt _ (by decide))
  have hform : formatDuration s =
      toString (s / 60) ++ ":" ++
        String.mk [Nat.digitChar (s % 60 / 10), Nat.digitChar (s % 60 % 10)] := by
    simp only [formatDuration, hsec]
  refine ⟨hform, ?_, by decide, by decide, by decide⟩
  have hcolon : (":" : String).length = 1 := rfl
  have hdigits : (String.mk [Nat.digitChar (s % 60 / 10),
      Nat.digitChar (s % 60 % 10)]).length = 2 := rfl
  rw [hform, String.length_append, String.length_append, hcolon, hdigits]

/-- C12, amended, at 3725 seconds: "62:05", five characters. -/
theorem C12_formatDuration_witness :
    (3725 : Nat) ≤ 2 ^ 53 ∧
    formatDuration 3725 =
      toString (3725 / 60) ++ ":" ++
        String.mk [Nat.digitChar (3725 % 60 / 10), Nat.digitChar (3725 % 60 % 10)] ∧
    formatDuration 3725 = "62:05" ∧
    (formatDuration 3725).length = (toString (3725 / 60)).length + 3 :=
  ⟨by norm_num, (C12_formatDuration 3725 (by norm_num)).1, by decide,
   (C12_formatDuration 3725 (by norm_num)).2.1⟩

end DiscordDJBot
